import Mathlib

/-!
Verification of `find-dhcp-servers.c` (obarthel/dhcp-client).

Shallow embedding of the DHCP DISCOVER encoder, the receive-side
acceptance filter and option decoder, the Internet checksum, and the
responder registry. Buffers are `List ℕ` of octet values; the rendered
key/value strings produced with `printf`-style formatting are modelled
as byte lists as well. Loops of the C source that advance an index are
embedded as structurally recursive functions on an explicit iteration
budget (`fuel`); every wrapper supplies a budget that exceeds the
number of iterations the C loop can execute (each iteration strictly
advances the index), so the embedded functions agree with the source
on all inputs on which the source terminates.
-/

namespace DhcpClient

/-- Decimal ASCII rendering of a natural number, as produced by the
`%u` conversion. The fuel argument dominates the number of digits. -/
def ascii_digits_go : ℕ → ℕ → List ℕ → List ℕ
  | 0, _, acc => acc
  | _ + 1, 0, acc => acc
  | fuel + 1, n, acc => ascii_digits_go fuel (n / 10) ((48 + n % 10) :: acc)

/-- ASCII bytes of the decimal rendering of `n` (`printf`-style `%u`). -/
def ascii_of_nat (n : ℕ) : List ℕ :=
  if n = 0 then [48] else ascii_digits_go (n + 1) n []

/-- ASCII bytes of a string literal, used to state expected rendered values. -/
def str (s : String) : List ℕ := s.toList.map Char.toNat

/-- Zero-padded two-digit rendering, as produced by `%02u`. -/
def pad2 (n : ℕ) : List ℕ := if n < 10 then 48 :: ascii_of_nat n else ascii_of_nat n

/-- Dotted-quad rendering `%u.%u.%u.%u` of four octets. -/
def quad (a b c d : ℕ) : List ℕ :=
  ascii_of_nat a ++ [46] ++ ascii_of_nat b ++ [46] ++ ascii_of_nat c ++ [46] ++ ascii_of_nat d

/-- Dotted-quad rendering of the first four octets of a list. -/
def quadL (l : List ℕ) : List ℕ :=
  quad (l.getD 0 0) (l.getD 1 0) (l.getD 2 0) (l.getD 3 0)

/-- Meaning of `%s` applied to a NUL-terminated copy of a byte buffer:
the characters before the first NUL. -/
def cstr (l : List ℕ) : List ℕ := l.takeWhile (· != 0)

/-- One lower-case hexadecimal digit. -/
def hex_digit (n : ℕ) : ℕ := if n < 10 then 48 + n else 87 + n

/-- Two-digit lower-case hexadecimal rendering, as produced by `%02x`. -/
def hex2 (b : ℕ) : List ℕ := [hex_digit (b / 16 % 16), hex_digit (b % 16)]

/-- Colon-separated MAC address rendering `%02x:%02x:%02x:%02x:%02x:%02x`. -/
def mac_render (m : List ℕ) : List ℕ :=
  hex2 (m.getD 0 0) ++ [58] ++ hex2 (m.getD 1 0) ++ [58] ++ hex2 (m.getD 2 0) ++ [58] ++
  hex2 (m.getD 3 0) ++ [58] ++ hex2 (m.getD 4 0) ++ [58] ++ hex2 (m.getD 5 0)

/-- Big-endian 32-bit value of the first four octets of a buffer
(`ntohl` of the word stored there). -/
def be32_of (data : List ℕ) : ℕ :=
  ((data.getD 0 0 * 256 + data.getD 1 0) * 256 + data.getD 2 0) * 256 + data.getD 3 0

/-- Big-endian 16-bit value of the first two octets of a buffer
(`ntohs` of the halfword stored there). -/
def be16_of (data : List ℕ) : ℕ := data.getD 0 0 * 256 + data.getD 1 0

/-- The four octets of a 32-bit IPv4 address in network order, as
extracted by the shift/mask sequence of `dhcp_input`. -/
def ip_bytes (n : ℕ) : List ℕ :=
  [n / 16777216 % 256, n / 65536 % 256, n / 256 % 256, n % 256]

/-- The Ethernet broadcast group address `ff:ff:ff:ff:ff:ff`. -/
def broadcast_mac : List ℕ := [255, 255, 255, 255, 255, 255]

/-- Sum of the 16-bit little-endian words of an octet buffer, exactly as
the summation loop of `in_cksum` reads them on a little-endian host; an
odd trailing octet is the low half of a final word whose high half is 0. -/
def wordSum : List ℕ → ℕ
  | [] => 0
  | [b] => b
  | b0 :: b1 :: rest => (b0 + 256 * b1) + wordSum rest

/-- Folding steps of `in_cksum`: add the upper 16 bits of the
accumulator back into the lower 16 bits, then add the carry, keeping
the low 16 bits (`sum = (sum >> 16) + (sum & 0xffff); sum += sum >> 16`). -/
def cksum_fold (s : ℕ) : ℕ :=
  (s / 65536 + s % 65536 + (s / 65536 + s % 65536) / 65536) % 65536

/-- Final answer of `in_cksum`: the one's complement of the folded
accumulator truncated to 16 bits (`answer = ~sum` stored in a
`uint16_t`). -/
def cksum_finish (s : ℕ) : ℕ := 65535 - cksum_fold s

/-- The FreeBSD Internet checksum routine `in_cksum` over an octet buffer. -/
def in_cksum (bytes : List ℕ) : ℕ := cksum_finish (wordSum bytes)

/-- Iteration core of `get_dhcp_message_type`: scan the vendor options
for option 53 and return its first value octet. `none` models the `-1`
"not found" result. -/
def get_dhcp_message_type_go : ℕ → List ℕ → ℕ → Option ℕ
  | 0, _, _ => none
  | fuel + 1, v, pos =>
    if pos < v.length then
      if v.getD pos 0 = 0 then get_dhcp_message_type_go fuel v (pos + 1)
      else if v.getD pos 0 = 255 ∨ pos + 1 = v.length then none
      else if pos + 2 = v.length then none
      else if v.getD pos 0 = 53 then some (v.getD (pos + 2) 0)
      else get_dhcp_message_type_go fuel v (pos + 2 + v.getD (pos + 1) 0)
    else none

/-- The DHCP message type found in a vendor options buffer
(`get_dhcp_message_type` of the source). -/
def get_dhcp_message_type (v : List ℕ) : Option ℕ :=
  get_dhcp_message_type_go (v.length + 1) v 0

/-- Iteration core of the read-bounds check for the option-processing
loop of `dhcp_input`: `true` when some iteration reaches the
`memmove(aligned_buffer, &vendor_options[pos], option_length)` with
`pos + option_length` past the end of the options buffer, i.e. when the
copy dereferences octets outside the buffer. -/
def dhcp_options_overread_go : ℕ → List ℕ → ℕ → Bool
  | 0, _, _ => false
  | fuel + 1, v, pos =>
    if pos < v.length then
      if v.getD pos 0 = 0 then dhcp_options_overread_go fuel v (pos + 1)
      else if v.getD pos 0 = 255 ∨ pos + 1 = v.length then false
      else if pos + 2 = v.length then false
      else if v.length < pos + 2 + v.getD (pos + 1) 0 then true
      else dhcp_options_overread_go fuel v (pos + 2 + v.getD (pos + 1) 0)
    else false

/-- Whether the TLV parse loop of `dhcp_input` reads value octets past
the end of the given options buffer. -/
def dhcp_options_overread (v : List ℕ) : Bool :=
  dhcp_options_overread_go (v.length + 1) v 0

/-- Separator and room management shared by the route decoders: the
text buffer passed in by `dhcp_input` holds 1500 octets, one reserved
for the terminating NUL (`text_buffer_size--`), so the usable capacity
is 1499. `none` models the `goto out` on overflow. -/
def route_text_append (acc rt : List ℕ) : Option (List ℕ) :=
  if 0 < acc.length then
    if 1499 < acc.length + 2 then none
    else if 1499 < acc.length + 2 + rt.length then none
    else some (acc ++ [44, 32] ++ rt)
  else if 1499 < acc.length + rt.length then none
  else some (acc ++ rt)

/-- Rendering of one classless route entry, following the three
`snprintf` cases of `decode_classless_static_route` (`ndo` is the
first octet of the entry, used directly as the destination octet
count; the printed prefix width is `ndo * 8`). -/
def classless_route_text (ndo : ℕ) (dest route : List ℕ) : List ℕ :=
  if ndo = 0 then quadL route
  else if ndo = 4 then quadL dest ++ str (" -> ") ++ quadL route
  else quadL dest ++ [47] ++ ascii_of_nat (ndo * 8) ++ str (" -> ") ++ quadL route

/-- Iteration core of `decode_classless_static_route` (RFC 3442 decoder
of the source). The first octet of each entry is taken as the number of
destination octets and must be at most 4; `none` models the `-1` failure
result of the C function (`goto out`). -/
def decode_classless_static_route_go : ℕ → List ℕ → ℕ → List ℕ → ℕ → Option (List ℕ × ℕ)
  | 0, _, _, acc, n => some (acc, n)
  | fuel + 1, d, pos, acc, n =>
    if pos < d.length then
      if 4 < d.getD pos 0 then none
      else if d.length < pos + 1 + d.getD pos 0 then none
      else if d.length < pos + 1 + d.getD pos 0 + 4 then none
      else
        match route_text_append acc
            (classless_route_text (d.getD pos 0)
              ((d.drop (pos + 1)).take (d.getD pos 0) ++ List.replicate (4 - d.getD pos 0) 0)
              ((d.drop (pos + 1 + d.getD pos 0)).take 4)) with
        | none => none
        | some acc2 =>
            decode_classless_static_route_go fuel d (pos + 1 + d.getD pos 0 + 4) acc2 (n + 1)
    else some (acc, n)

/-- Decoder for DHCP option 121 as implemented by
`decode_classless_static_route`: returns the rendered text and the
number of routes decoded, or `none` on a malformed payload. -/
def decode_classless_static_route (d : List ℕ) : Option (List ℕ × ℕ) :=
  decode_classless_static_route_go (d.length + 1) d 0 [] 0

/-- Iteration core of `decode_static_route` (RFC 1533 static route
decoder): pairs of destination and router, stopping at a zero first
octet; `none` models the `-1` failure result. -/
def decode_static_route_go : ℕ → List ℕ → ℕ → List ℕ → ℕ → Option (List ℕ × ℕ)
  | 0, _, _, acc, n => some (acc, n)
  | fuel + 1, d, pos, acc, n =>
    if pos < d.length then
      if d.getD pos 0 = 0 then some (acc, n)
      else if d.length < pos + 1 + 8 then none
      else
        match route_text_append acc
            (quadL ((d.drop (pos + 1)).take 4) ++ str (" -> ") ++
             quadL ((d.drop (pos + 5)).take 4)) with
        | none => none
        | some acc2 => decode_static_route_go fuel d (pos + 9) acc2 (n + 1)
    else some (acc, n)

/-- Decoder for DHCP option 33 as implemented by `decode_static_route`. -/
def decode_static_route (d : List ℕ) : Option (List ℕ × ℕ) :=
  decode_static_route_go (d.length + 1) d 0 [] 0

/-- Human-readable duration suffix produced by
`convert_seconds_to_readable_form` (empty below one minute). -/
def convert_seconds_to_readable_form (s : ℕ) : List ℕ :=
  if s < 60 then []
  else if s < 3600 then
    str (" (") ++ ascii_of_nat (s / 60) ++ [58] ++ pad2 (s % 60) ++
    (if 1 < s / 60 then str (" minutes)") else str (" minute)"))
  else if s < 86400 then
    str (" (") ++ ascii_of_nat (s / 3600) ++ [58] ++ pad2 (s / 60 % 60) ++ [58] ++ pad2 (s % 60) ++
    (if 1 < s / 3600 then str (" hours)") else str (" hour)"))
  else
    str (" (") ++ ascii_of_nat (s / 86400) ++ [58] ++ pad2 (s / 3600 % 24) ++ [58] ++
    pad2 (s / 60 % 60) ++ [58] ++ pad2 (s % 60) ++
    (if 1 < s / 86400 then str (" days)") else str (" day)"))

/-- Value rendered for the duration options (51, 58, 59):
`"%u seconds%s"` with the human-readable suffix. -/
def seconds_render (s : ℕ) : List ℕ :=
  ascii_of_nat s ++ str (" seconds") ++ convert_seconds_to_readable_form s

/-- Iteration core of `get_domain_name_size`: number of octets occupied
by one encoded domain name starting at `pos`, ending at a zero label or
a compression pointer; `0` models the buffer-overflow/encoding-error
result. The label byte classification follows `length & 0xc0`: for an
octet below 256 the masked value is `0` exactly when the octet is below
64 and `0xc0` exactly when it is at least 192. -/
def get_domain_name_size_go : ℕ → List ℕ → ℕ → ℕ
  | 0, _, pos => pos
  | fuel + 1, b, pos =>
    if pos < b.length then
      if b.getD pos 0 = 0 then pos + 1
      else if b.getD pos 0 < 64 then
        if b.length < pos + 1 + b.getD pos 0 then 0
        else get_domain_name_size_go fuel b (pos + 1 + b.getD pos 0)
      else if 192 ≤ b.getD pos 0 then
        if pos + 1 = b.length then 0 else pos + 2
      else 0
    else pos

/-- Size in octets of the encoded domain name at the start of `b`
(`get_domain_name_size` of the source, which is called on the suffix of
the aggregate buffer beginning at the current position). -/
def get_domain_name_size (b : List ℕ) : ℕ := get_domain_name_size_go (b.length + 1) b 0

/-- State of one iteration of the `decode_domain_name` while loop:
either the loop continues at a new input position with the output built
so far, or it finished with a decoded name, or it failed. -/
inductive DNStep
  | cont (pos : ℕ) (out : List ℕ)
  | done (out : List ℕ)
  | fail
deriving DecidableEq

/-- One iteration of the `decode_domain_name` loop body. A label is
appended (with a `.` separator) only when it still fits the output
buffer of `outsz` octets; a compression pointer moves the input
position to the 14-bit offset it carries and may target any offset
below the buffer length, including earlier or identical positions. -/
def decode_domain_name_step (b : List ℕ) (pos : ℕ) (out : List ℕ) (outsz : ℕ) : DNStep :=
  if pos < b.length then
    if b.getD pos 0 = 0 then .done out
    else if b.getD pos 0 < 64 then
      if b.length < pos + 1 + b.getD pos 0 then .fail
      else
        .cont (pos + 1 + b.getD pos 0)
          (if out.length + b.getD pos 0 + 1 < outsz then
            (if 0 < out.length then out ++ [46] else out) ++
              (b.drop (pos + 1)).take (b.getD pos 0)
          else out)
    else if 192 ≤ b.getD pos 0 then
      if pos + 1 = b.length then .fail
      else if b.length ≤ b.getD pos 0 % 64 * 256 + b.getD (pos + 1) 0 then .fail
      else .cont (b.getD pos 0 % 64 * 256 + b.getD (pos + 1) 0) out
    else .fail
  else .done out

/-- The `decode_domain_name` while loop, iterated at most `fuel` times.
The C loop has no iteration bound of its own: when the budget runs out
the still-running state is returned as `DNStep.cont`. -/
def decode_domain_name_run : ℕ → List ℕ → ℕ → List ℕ → ℕ → DNStep
  | 0, _, pos, out, _ => .cont pos out
  | fuel + 1, b, pos, out, outsz =>
    match decode_domain_name_step b pos out outsz with
    | .cont p o => decode_domain_name_run fuel b p o outsz
    | r => r

/-- Decoded domain name at offset `pos` of the aggregate buffer, with
the 256-octet output buffer of `decode_domain_search`; the empty list
models the `0` (error) result. The iteration budget is a modelling
artefact: the C loop can run forever on a compression-pointer cycle
(see the C4 analysis below), in which case this model reports failure. -/
def decode_domain_name (b : List ℕ) (pos : ℕ) : List ℕ :=
  match decode_domain_name_run (b.length * 256 + 256) b pos [] 256 with
  | .done out => out
  | _ => []

/-- Iteration core of the first loop of
`fill_aggregate_buffer_from_option`: total length of the data of all
options of type `t`. As in the source, this sizing loop never skips
value octets, so after an option header it continues scanning inside
the option's value. -/
def fill_aggregate_size_go : ℕ → List ℕ → ℕ → ℕ → ℕ → ℕ
  | 0, _, _, _, acc => acc
  | fuel + 1, v, t, pos, acc =>
    if pos < v.length then
      if v.getD pos 0 = 0 then fill_aggregate_size_go fuel v t (pos + 1) acc
      else if v.getD pos 0 = 255 ∨ pos + 1 = v.length then acc
      else if pos + 2 = v.length then acc
      else
        fill_aggregate_size_go fuel v t (pos + 2)
          (acc + (if v.getD pos 0 = t then v.getD (pos + 1) 0 else 0))
    else acc

/-- Required aggregate size computed by the first loop of
`fill_aggregate_buffer_from_option`. -/
def fill_aggregate_size (v : List ℕ) (t : ℕ) : ℕ :=
  fill_aggregate_size_go (v.length + 1) v t 0 0

/-- Iteration core of the second loop of
`fill_aggregate_buffer_from_option`: concatenated data of all options of
type `t`. This loop skips the value octets of matching options but, as
in the source, not those of non-matching options. -/
def fill_aggregate_collect_go : ℕ → List ℕ → ℕ → ℕ → List ℕ → List ℕ
  | 0, _, _, _, acc => acc
  | fuel + 1, v, t, pos, acc =>
    if pos < v.length then
      if v.getD pos 0 = 0 then fill_aggregate_collect_go fuel v t (pos + 1) acc
      else if v.getD pos 0 = 255 ∨ pos + 1 = v.length then acc
      else if pos + 2 = v.length then acc
      else if v.getD pos 0 = t then
        fill_aggregate_collect_go fuel v t (pos + 2 + v.getD (pos + 1) 0)
          (acc ++ (v.drop (pos + 2)).take (v.getD (pos + 1) 0))
      else fill_aggregate_collect_go fuel v t (pos + 2) acc
    else acc

/-- Octets written by the second loop of
`fill_aggregate_buffer_from_option`. The C function stores them into a
buffer of `fill_aggregate_size` octets; the model truncates to that
size (the C behaviour past it is an out-of-bounds write). -/
def fill_aggregate_buffer (v : List ℕ) (t : ℕ) : List ℕ :=
  (fill_aggregate_collect_go (v.length + 1) v t 0 []).take (fill_aggregate_size v t)

/-- Separator and room management of the domain-search output loop:
the output buffer passed in by `dhcp_input` holds 1500 octets. -/
def domain_search_append (acc name : List ℕ) : List ℕ :=
  (if 0 < acc.length ∧ acc.length + 2 < 1500 then acc ++ [44, 32] else acc) ++
    (if (if 0 < acc.length ∧ acc.length + 2 < 1500 then acc ++ [44, 32] else acc).length +
        name.length < 1500 then name else [])

/-- Iteration core of the per-name loop of `decode_domain_search`. -/
def domain_search_go : ℕ → List ℕ → ℕ → List ℕ → List ℕ
  | 0, _, _, acc => acc
  | fuel + 1, agg, pos, acc =>
    if pos < agg.length then
      if get_domain_name_size (agg.drop pos) = 0 then acc
      else
        domain_search_go fuel agg (pos + get_domain_name_size (agg.drop pos))
          (if 0 < (decode_domain_name agg pos).length then
            domain_search_append acc (decode_domain_name agg pos)
          else acc)
    else acc

/-- Decoder for DHCP option 119 as implemented by
`decode_domain_search`: aggregate all option-119 data (RFC 3396), then
decode the stored names; `none` models the `false` result returned when
no option-119 data exists. -/
def decode_domain_search (v : List ℕ) : Option (List ℕ) :=
  if fill_aggregate_size v 119 = 0 then none
  else some (domain_search_go (fill_aggregate_buffer v 119).length (fill_aggregate_buffer v 119) 0 [])

/-- One decoded key/value entry (`struct kv_node`): the key is the
option or response-field name, the value the rendered text as octets. -/
structure KV where
  key : String
  val : List ℕ
deriving DecidableEq

/-- Name table used for option 53 values 1 through 8. -/
def message_type_name (n : ℕ) : String :=
  if n = 1 then "discover"
  else if n = 2 then "offer"
  else if n = 3 then "request"
  else if n = 4 then "decline"
  else if n = 5 then "acknowledge"
  else if n = 6 then "negative acknowledgement"
  else if n = 7 then "release"
  else if n = 8 then "inform"
  else ""

/-- Groups of four consecutive octets, as consumed by the
`for(i = 0; i < option_length; i += 4)` loops (used only when the
length is a positive multiple of four). -/
def quad_groups : List ℕ → List (List ℕ)
  | a :: b :: c :: d :: rest => [a, b, c, d] :: quad_groups rest
  | _ => []

/-- One key/value entry per address for the list-valued options
(gateway, DNS, NTP, NetBIOS name server). -/
def quad_list_kvs (key : String) (data : List ℕ) : List KV :=
  (quad_groups data).map (fun g => ⟨key, quadL g⟩)

/-- Entries emitted for option 33: the decoded static-route text when
`decode_static_route` reports at least one route. -/
def static_route_kvs (data : List ℕ) : List KV :=
  match decode_static_route data with
  | some r => if 0 < r.2 then [⟨"static-route", r.1⟩] else []
  | none => []

/-- Entries emitted for option 119: the decoded domain-search text when
any option-119 data was found. -/
def domain_search_kvs (v : List ℕ) : List KV :=
  match decode_domain_search v with
  | some text => [⟨"domain-search", text⟩]
  | none => []

/-- Entries emitted for option 121: the decoded classless-route text
when `decode_classless_static_route` reports at least one route. -/
def classless_route_kvs (data : List ℕ) : List KV :=
  match decode_classless_static_route data with
  | some r => if 0 < r.2 then [⟨"classless-static-route", r.1⟩] else []
  | none => []

/-- The `switch(option_type)` of the option-processing loop of
`dhcp_input`: key/value entries emitted for one option of type `t`
with declared length `l` and copied value octets `data` (the
NUL-terminated copy in `aligned_buffer`). Option 119 receives the whole
vendor options buffer `v` because `decode_domain_search` re-scans it. -/
def dhcp_option_case (v : List ℕ) (t l : ℕ) (data : List ℕ) : List KV :=
  if t = 53 then
    if 1 ≤ data.getD 0 0 ∧ data.getD 0 0 ≤ 8 then
      [⟨"dhcp-message-type",
        ascii_of_nat (data.getD 0 0) ++ str (" (") ++
          str (message_type_name (data.getD 0 0)) ++ [41]⟩]
    else [⟨"dhcp-message-type", ascii_of_nat (data.getD 0 0)⟩]
  else if t = 54 then
    if 4 ≤ l then [⟨"server-identifier", quadL data⟩] else []
  else if t = 51 then
    if 4 ≤ l then [⟨"ip-address-lease-time", seconds_render (be32_of data)⟩] else []
  else if t = 1 then
    if 4 ≤ l then [⟨"subnet-mask", quadL data⟩] else []
  else if t = 3 then
    if 4 ≤ l ∧ l % 4 = 0 then quad_list_kvs ("gateway") data else []
  else if t = 6 then
    if 4 ≤ l ∧ l % 4 = 0 then quad_list_kvs ("domain-name-server") data else []
  else if t = 15 then [⟨"domain-name", cstr data⟩]
  else if t = 57 then
    if 4 ≤ l then [⟨"maximum-dhcp-message-size", ascii_of_nat (be16_of data)⟩] else []
  else if t = 58 then
    if 4 ≤ l then [⟨"renewal-time", seconds_render (be32_of data)⟩] else []
  else if t = 59 then
    if 4 ≤ l then [⟨"rebinding-time", seconds_render (be32_of data)⟩] else []
  else if t = 33 then static_route_kvs data
  else if t = 56 then [⟨"message", cstr data⟩]
  else if t = 119 then domain_search_kvs v
  else if t = 121 then classless_route_kvs data
  else if t = 252 then [⟨"web-proxy-auto-discovery", cstr data⟩]
  else if t = 95 then [⟨"ldap-url", cstr data⟩]
  else if t = 44 then
    if 4 ≤ l ∧ l % 4 = 0 then quad_list_kvs ("netbios-over-tcp-ip-name-server") data else []
  else if t = 46 then [⟨"netbios-over-tcp-ip-node-type", ascii_of_nat (data.getD 0 0)⟩]
  else if t = 47 then [⟨"netbios-over-tcp-ip-scope", cstr data⟩]
  else if t = 31 then
    [⟨"perform-router-discovery", if data.getD 0 0 ≠ 0 then str ("yes") else str ("no")⟩]
  else if t = 26 then [⟨"interface-mtu", ascii_of_nat (be16_of data)⟩]
  else if t = 42 then
    if 4 ≤ l ∧ l % 4 = 0 then quad_list_kvs ("network-time-protocol-server") data else []
  else if t = 28 then
    if 4 ≤ l then [⟨"broadcast-address", quadL data⟩] else []
  else if t = 116 then
    [⟨"auto-configure",
      if data.getD 0 0 ≠ 0 then str ("AutoConfigure") else str ("DoNotAutoConfigure")⟩]
  else [⟨"option-" ++ toString t, ascii_of_nat l ++ str (" data bytes")⟩]

/-- Iteration core of the option-processing loop of `dhcp_input`: walk
the TLV stream, copy each option's value and dispatch on its type.
`ign` models the `ignore_option` bitmap (only option 119 is ever added
to it, by its own case). -/
def dhcp_options_go : ℕ → List ℕ → ℕ → List ℕ → List KV
  | 0, _, _, _ => []
  | fuel + 1, v, pos, ign =>
    if pos < v.length then
      if v.getD pos 0 = 0 then dhcp_options_go fuel v (pos + 1) ign
      else if v.getD pos 0 = 255 ∨ pos + 1 = v.length then []
      else if pos + 2 = v.length then []
      else if v.getD pos 0 ∈ ign then
        dhcp_options_go fuel v (pos + 2 + v.getD (pos + 1) 0) ign
      else
        dhcp_option_case v (v.getD pos 0) (v.getD (pos + 1) 0)
            ((v.drop (pos + 2)).take (v.getD (pos + 1) 0)) ++
          dhcp_options_go fuel v (pos + 2 + v.getD (pos + 1) 0)
            (if v.getD pos 0 = 119 then v.getD pos 0 :: ign else ign)
    else []

/-- Key/value entries produced by the option-processing loop of
`dhcp_input` for a vendor options buffer. -/
def dhcp_options (v : List ℕ) : List KV := dhcp_options_go (v.length + 1) v 0 []

/-- The fields of an incoming frame used by `dhcp_input`: BOOTP header
fields (multi-octet ones already converted to host order, as the source
reads them through `ntohl`), the Ethernet source and destination MAC,
the IPv4 source address and the vendor options. -/
structure Frame where
  opcode : ℕ
  xid : ℕ
  magic_cookie : ℕ
  src_ip : ℕ
  src_mac : List ℕ
  dst_mac : List ℕ
  yiaddr : ℕ
  siaddr : ℕ
  giaddr : ℕ
  sname : List ℕ
  file : List ℕ
  vend : List ℕ
deriving DecidableEq

/-- One recorded DHCP server response
(`struct dhcp_server_response_data`). -/
structure Responder where
  ip : List ℕ
  mac : List ℕ
  stamp : ℕ
  response : List KV
  options : List KV
deriving DecidableEq

/-- Observable side channel of `dhcp_input` beyond the registry: the
BEL octet written to stderr under `--audible`, and the duplicate-server
notice written unless `--quiet`. -/
inductive Effect
  | bel
  | dup_notice
deriving DecidableEq

/-- Linear search of the registry by the (IPv4, MAC) pair
(`find_dhcp_server_data`). -/
def find_dhcp_server_data (ip mac : List ℕ) (reg : List Responder) : Option Responder :=
  reg.find? (fun r => r.ip == ip && r.mac == mac)

/-- General response fields recorded for a new responder, in the order
`dhcp_input` emits them. `ifname` and `client_mac` model the globals
`interface_name` and `client_mac_address`. -/
def build_response (ifname client_mac : List ℕ) (f : Frame) (sip : List ℕ) : List KV :=
  [⟨"network-interface", ifname ++ str (" (") ++ mac_render client_mac ++ [41]⟩] ++
  (if cstr (f.sname.take 64) ≠ [] then
    [⟨"server-name", 34 :: cstr (f.sname.take 64) ++ [34]⟩] else []) ++
  [⟨"server-ipv4-address", quadL sip⟩,
   ⟨"server-mac-address", mac_render f.src_mac⟩,
   ⟨"destination-mac-address",
     mac_render f.dst_mac ++ str (" (") ++
       (if f.dst_mac = broadcast_mac then str ("broadcast") else str ("unicast")) ++ [41]⟩,
   ⟨"offered-ipv4-address", quadL (ip_bytes f.yiaddr)⟩] ++
  (if f.siaddr ≠ 0 then [⟨"next-server-ipv4-address", quadL (ip_bytes f.siaddr)⟩] else []) ++
  (if f.giaddr ≠ 0 then [⟨"relay-agent-ipv4-address", quadL (ip_bytes f.giaddr)⟩] else []) ++
  (if cstr (f.file.take 128) ≠ [] then
    [⟨"boot-file-name", 34 :: cstr (f.file.take 128) ++ [34]⟩] else [])

/-- The `dhcp_input` handler as a transition on the responder registry.
Returns the new registry and the stderr effects, in emission order. The
acceptance filter is the source's rejection condition verbatim; the BEL
is written right after it, before the duplicate check. Allocation is
modelled as always succeeding, and the `--max-responses` loop-break
counter is not modelled (no claim concerns it). -/
def dhcp_input (audible quiet : Bool) (ifname client_mac : List ℕ) (t_id now : ℕ)
    (f : Frame) (reg : List Responder) : List Responder × List Effect :=
  if f.opcode ≠ 2 ∨ f.magic_cookie ≠ 0x63825363 ∨ f.xid ≠ t_id ∨
      get_dhcp_message_type f.vend ≠ some 2 then
    (reg, [])
  else
    match find_dhcp_server_data (ip_bytes f.src_ip) f.src_mac reg with
    | some _ =>
        (reg, (if audible then [Effect.bel] else []) ++
              (if quiet then [] else [Effect.dup_notice]))
    | none =>
        (reg ++ [{ ip := ip_bytes f.src_ip, mac := f.src_mac, stamp := now,
                   response := build_response ifname client_mac f (ip_bytes f.src_ip),
                   options := dhcp_options f.vend }],
         if audible then [Effect.bel] else [])

/-- One encoded option: type octet, length octet, value octets
(`fill_dhcp_option`). -/
def fill_dhcp_option (code : ℕ) (data : List ℕ) : List ℕ := code :: data.length :: data

/-- The parameter request list sent in the DISCOVER (25 option codes). -/
def parameter_req_list : List ℕ :=
  [1, 3, 6, 15, 26, 28, 31, 33, 42, 44, 46, 47, 51, 53, 54, 55, 56, 57, 58, 59,
   95, 116, 119, 121, 252]

/-- Vendor option octets of the DISCOVER built by
`fill_dhcp_discover_options`: message type, maximum message size (the
MTU in network order), parameter request list, end marker, and a
trailing PAD octet when the total is odd. -/
def fill_dhcp_discover_options (mtu : ℕ) : List ℕ :=
  if (fill_dhcp_option 53 [1] ++ fill_dhcp_option 57 [mtu / 256 % 256, mtu % 256] ++
      fill_dhcp_option 55 parameter_req_list ++ fill_dhcp_option 255 []).length % 2 ≠ 0 then
    fill_dhcp_option 53 [1] ++ fill_dhcp_option 57 [mtu / 256 % 256, mtu % 256] ++
      fill_dhcp_option 55 parameter_req_list ++ fill_dhcp_option 255 [] ++ [0]
  else
    fill_dhcp_option 53 [1] ++ fill_dhcp_option 57 [mtu / 256 % 256, mtu % 256] ++
      fill_dhcp_option 55 parameter_req_list ++ fill_dhcp_option 255 []

/-- Size of the fixed part of `bootp_t`: opcode, htype, hlen, hops (4),
xid (4), secs and flags (4), the four IPv4 addresses (16), chaddr (16),
sname (64), file (128) and the magic cookie (4). -/
def bootp_fixed_size : ℕ := 4 + 4 + 4 + 16 + 16 + 64 + 128 + 4

/-- Length after `dhcp_output`: options plus the fixed BOOTP header. -/
def dhcp_output_len (optlen : ℕ) : ℕ := optlen + bootp_fixed_size

/-- The minimum-length rule of `dhcp_discover`: when IP header, UDP
header and BOOTP payload together are under 300 octets, the payload is
extended so that the three amount to exactly 300. -/
def dhcp_min_length_pad (len : ℕ) : ℕ :=
  if 20 + 8 + len < 300 then 300 - (20 + 8) else len

/-- Length after `udp_output`: the payload is padded to an even length,
then the 8-octet UDP header is added. -/
def udp_output_len (len : ℕ) : ℕ := (if len % 2 ≠ 0 then len + 1 else len) + 8

/-- Length after `ip_output`: the 20-octet IP header is added. -/
def ip_output_len (len : ℕ) : ℕ := len + 20

/-- Length after `ether_output`: the 14-octet Ethernet header is added. -/
def ether_output_len (len : ℕ) : ℕ := len + 14

/-- Number of octets handed to `pcap_inject` for the DISCOVER frame
built by `dhcp_discover`, following the length bookkeeping of the
encode path. The broadcast flag only changes the BOOTP `flags` field,
never a length. -/
def dhcp_discover_frame_len (mtu : ℕ) (use_broadcast : Bool) : ℕ :=
  ether_output_len (ip_output_len (udp_output_len (dhcp_min_length_pad
    (dhcp_output_len (fill_dhcp_discover_options mtu).length))))

/-- MAC address used by the concrete test frames. -/
def sample_mac : List ℕ := [170, 187, 204, 221, 238, 255]

/-- An accepted OFFER frame from 192.168.1.1 used by the concrete
registry scenarios (transaction ID 7, message type 2 in the options). -/
def sample_offer_frame : Frame :=
  { opcode := 2, xid := 7, magic_cookie := 0x63825363,
    src_ip := 0xC0A80101, src_mac := sample_mac, dst_mac := broadcast_mac,
    yiaddr := 0xC0A80164, siaddr := 0, giaddr := 0,
    sname := [], file := [], vend := [53, 1, 2, 255] }

/-- The same frame with a mismatched transaction ID. -/
def sample_bad_xid_frame : Frame := { sample_offer_frame with xid := 8 }

/-- A registry entry already recorded for the responder of
`sample_offer_frame`, with the first frame's timestamp 5. -/
def sample_responder : Responder :=
  { ip := [192, 168, 1, 1], mac := sample_mac, stamp := 5,
    response := [], options := [] }

/-- Iteration core of the specification-side option walk (see
`spec_options_carry_message`): PAD skips one octet, END stops, any read
past the buffer end stops, and an option counts as carrying message
type `m` only when its type is 53, its declared length is at least one,
and its first value octet equals `m`. -/
def spec_options_carry_message_go : ℕ → List ℕ → ℕ → ℕ → Bool
  | 0, _, _, _ => false
  | fuel + 1, v, m, pos =>
    if pos < v.length then
      if v.getD pos 0 = 0 then spec_options_carry_message_go fuel v m (pos + 1)
      else if v.getD pos 0 = 255 then false
      else if v.length < pos + 2 then false
      else if v.length < pos + 2 + v.getD (pos + 1) 0 then false
      else if v.getD pos 0 = 53 ∧ 1 ≤ v.getD (pos + 1) 0 ∧ v.getD (pos + 2) 0 = m then true
      else spec_options_carry_message_go fuel v m (pos + 2 + v.getD (pos + 1) 0)
    else false

/-- Specification-side reading of "the options carry a
dhcp-message-type equal to `m`", following the spec's words rather than
the source: the TLV walk reads one type octet, one length octet, then
`length` value octets, stopping if any read would pass the buffer end,
and the options carry message type `m` exactly when a well-formed
option 53 has a first value octet equal to `m`. This is the second
definition of the C5 refinement comparison; the source's scan is
`get_dhcp_message_type`, which reads a value octet even when the
declared length is zero. -/
def spec_options_carry_message (v : List ℕ) (m : ℕ) : Bool :=
  spec_options_carry_message_go (v.length + 1) v m 0

/-- An incoming frame with matching opcode, cookie and transaction ID
whose options are a zero-length option 53 followed by the stray octet
2: by the spec's reading its options carry no dhcp-message-type at
all. -/
def sample_zero_length_frame : Frame := { sample_offer_frame with vend := [53, 0, 2] }

/-- Splitting the word sum at an even offset: the summation loop pairs
octets two at a time, so a prefix of even length contributes its own
word sum. -/
theorem wordSum_append : ∀ (l r : List ℕ), l.length % 2 = 0 →
    wordSum (l ++ r) = wordSum l + wordSum r
  | [], r, _ => by simp [wordSum]
  | [b], r, h => by simp at h
  | b0 :: b1 :: rest, r, h => by
    have h2 : rest.length % 2 = 0 := by simp [List.length_cons] at h; omega
    have ih := wordSum_append rest r h2
    simp only [List.cons_append, wordSum, List.append_eq, ih]
    omega

/-- Bound on the word sum of an octet buffer: each pair of octets below
256 forms a word below 65536. -/
theorem wordSum_le : ∀ (l : List ℕ), (∀ b ∈ l, b < 256) → wordSum l ≤ 32768 * l.length
  | [], _ => by simp [wordSum]
  | [b], h => by
    have := h b (by simp)
    simp [wordSum]
    omega
  | b0 :: b1 :: rest, h => by
    have hb0 := h b0 (by simp)
    have hb1 := h b1 (by simp)
    have ih := wordSum_le rest (fun b hb => h b (by simp [hb]))
    simp only [wordSum, List.length_cons]
    omega

/-- The folded accumulator is congruent to the accumulator modulo
`0xffff` (end-around carry is reduction modulo 65535), as long as the
accumulator fits 32 bits. -/
theorem cksum_fold_congr (s : ℕ) (hs : s < 4294967296) :
    cksum_fold s % 65535 = s % 65535 := by
  unfold cksum_fold
  obtain ⟨q, r, hq, hr, rfl⟩ : ∃ q r, q ≤ 65535 ∧ r < 65536 ∧ s = 65536 * q + r :=
    ⟨s / 65536, s % 65536, by omega, by omega, by omega⟩
  have h1 : (65536 * q + r) / 65536 = q := by omega
  have h2 : (65536 * q + r) % 65536 = r := by omega
  rw [h1, h2]
  by_cases hd : q + r < 65536
  · have h3 : (q + r) / 65536 = 0 := by omega
    have e2 : (q + r + 0) % 65536 = q + r := by omega
    have e3 : 65536 * q + r = (q + r) + q * 65535 := by ring
    rw [h3, e2, e3, Nat.add_mul_mod_self_right]
  · have h3 : (q + r) / 65536 = 1 := by omega
    have e2 : (q + r + 1) % 65536 = q + r + 1 - 65536 := by omega
    have e3 : 65536 * q + r = (q + r + 1 - 65536) + (q + 1) * 65535 := by omega
    rw [h3, e2, e3, Nat.add_mul_mod_self_right]

/-- The folded accumulator is zero only for a zero accumulator. -/
theorem cksum_fold_zero (s : ℕ) (hs : s < 4294967296) : cksum_fold s = 0 → s = 0 := by
  unfold cksum_fold
  obtain ⟨q, r, hq, hr, rfl⟩ : ∃ q r, q ≤ 65535 ∧ r < 65536 ∧ s = 65536 * q + r :=
    ⟨s / 65536, s % 65536, by omega, by omega, by omega⟩
  have h1 : (65536 * q + r) / 65536 = q := by omega
  have h2 : (65536 * q + r) % 65536 = r := by omega
  rw [h1, h2]
  by_cases hd : q + r < 65536
  · have h3 : (q + r) / 65536 = 0 := by omega
    rw [h3]
    intro h
    omega
  · have h3 : (q + r) / 65536 = 1 := by omega
    have e2 : (q + r + 1) % 65536 = q + r + 1 - 65536 := by omega
    rw [h3, e2]
    intro h
    omega

/-- Core one's-complement identity of the folding steps: adding the
checksum of a sum back into the sum makes the folded result `0xffff`,
so the final complemented answer is zero. The bound keeps the 32-bit
accumulator of the C routine exact. -/
theorem cksum_finish_roundtrip (s : ℕ) (hs : s ≤ 4294901760) :
    cksum_finish (s + cksum_finish s) = 0 := by
  unfold cksum_finish
  by_cases hs0 : s = 0
  · subst hs0; decide
  · have h1 := cksum_fold_congr s (by omega)
    have hlt : cksum_fold s < 65536 := Nat.mod_lt _ (by norm_num)
    have h3 := cksum_fold_congr (s + (65535 - cksum_fold s)) (by omega)
    have h4 := cksum_fold_zero (s + (65535 - cksum_fold s)) (by omega)
    have hlt2 : cksum_fold (s + (65535 - cksum_fold s)) < 65536 := Nat.mod_lt _ (by norm_num)
    have h4b : cksum_fold (s + (65535 - cksum_fold s)) ≠ 0 := fun h =>
      hs0 (by have := h4 h; omega)
    omega

/-- C6: Internet-checksum round-trip. For an octet buffer with a
16-bit checksum field at an even offset (`pre` of even length before
it, `post` after it, both of octet values), writing the checksum
computed with the field zeroed into the field — low octet first, as a
little-endian host stores the `uint16_t` answer — makes the checksum
of the resulting buffer zero. `post` may have either parity, covering
odd-length buffers. The length bound keeps the C routine's 32-bit
accumulator exact; every buffer the program checksums is far shorter. -/
theorem in_cksum_roundtrip (pre post : List ℕ) (hpre : pre.length % 2 = 0)
    (hoct : ∀ b ∈ pre ++ post, b < 256) (hlen : pre.length + post.length ≤ 131068) :
    in_cksum (pre ++ in_cksum (pre ++ 0 :: 0 :: post) % 256 ::
      in_cksum (pre ++ 0 :: 0 :: post) / 256 :: post) = 0 := by
  have hp : ∀ b ∈ pre, b < 256 := fun b hb => hoct b (List.mem_append_left _ hb)
  have hq : ∀ b ∈ post, b < 256 := fun b hb => hoct b (List.mem_append_right _ hb)
  have h1 : wordSum (pre ++ 0 :: 0 :: post) = wordSum pre + wordSum post := by
    rw [wordSum_append _ _ hpre]
    simp [wordSum]
  have hc : in_cksum (pre ++ 0 :: 0 :: post) =
      cksum_finish (wordSum pre + wordSum post) := by
    rw [in_cksum, h1]
  have h2 : wordSum (pre ++ in_cksum (pre ++ 0 :: 0 :: post) % 256 ::
      in_cksum (pre ++ 0 :: 0 :: post) / 256 :: post) =
      wordSum pre + wordSum post + cksum_finish (wordSum pre + wordSum post) := by
    rw [wordSum_append _ _ hpre, hc]
    simp only [wordSum]
    omega
  have hb1 := wordSum_le pre hp
  have hb2 := wordSum_le post hq
  have hs : wordSum pre + wordSum post ≤ 4294901760 := by
    have : 32768 * pre.length + 32768 * post.length ≤ 32768 * 131068 := by omega
    omega
  rw [in_cksum, h2]
  exact cksum_finish_roundtrip _ hs

/-- C6 witness: the round-trip theorem applied to a concrete odd-length
buffer: checksumming `[0, 0, 69, 0, 17]` and storing the answer in the
first two octets yields a buffer whose checksum is zero. -/
theorem in_cksum_roundtrip_witness :
    in_cksum ([] ++ in_cksum ([] ++ 0 :: 0 :: [69, 0, 17]) % 256 ::
      in_cksum ([] ++ 0 :: 0 :: [69, 0, 17]) / 256 :: [69, 0, 17]) = 0 :=
  in_cksum_roundtrip [] [69, 0, 17] rfl (by decide) (by decide)

/-- C1: the claim states that the TLV parse loop of `dhcp_input` never
reads value octets past the end of the options buffer. The options
buffer `[53, 2, 2]` refutes it: the frame passes the acceptance filter
(its message type scan yields OFFER), yet the loop reads a declared
length of 2 at offset 1 and memmoves 2 value octets starting at offset
2 of the 3-octet buffer, dereferencing one octet past its end. -/
theorem c1_tlv_overread_evidence :
    dhcp_options_overread [53, 2, 2] = true ∧
    get_dhcp_message_type [53, 2, 2] = some 2 := by
  constructor <;> rfl

/-- C2 counterexample: at MTU 1500 without broadcast the serialized
DISCOVER frame is 318 octets, violating the claimed 342-octet lower
bound. -/
theorem c2_counterexample :
    ¬ (342 ≤ dhcp_discover_frame_len 1500 false ∧
       dhcp_discover_frame_len 1500 false ≤ 14 + 1500) := by
  decide

/-- C2 (amended): for every MTU and broadcast setting the serialized
DISCOVER frame is exactly 318 octets (14 Ethernet + 20 IP + 8 UDP + 276
BOOTP): the encoder pads the IP+UDP+BOOTP datagram, not the BOOTP
payload, to the 300-octet minimum, and with 36 octets of options the
datagram is already 304 octets. -/
theorem c2_frame_len_exact (mtu : ℕ) (use_broadcast : Bool) :
    dhcp_discover_frame_len mtu use_broadcast = 318 := by
  simp [dhcp_discover_frame_len, ether_output_len, ip_output_len, udp_output_len,
    dhcp_min_length_pad, dhcp_output_len, bootp_fixed_size, fill_dhcp_discover_options,
    fill_dhcp_option, parameter_req_list]

/-- C3: on the specified option-121 payload
`18 AC 10 00 AC 10 00 01 00 C0 A8 00 01` the decoder fails (the first
octet 0x18 = 24 is treated as a destination-octet count and rejected
as greater than 4) instead of decoding `172.16.0.0/24 -> 172.16.0.1,
192.168.0.1`; the payload whose first octet is the octet count 3 shows
that the code expects `⌈p/8⌉` in the prefix-length position. -/
theorem c3_classless_route_evidence :
    decode_classless_static_route
      [0x18, 0xAC, 0x10, 0x00, 0xAC, 0x10, 0x00, 0x01, 0x00, 0xC0, 0xA8, 0x00, 0x01] = none ∧
    decode_classless_static_route
      [3, 0xAC, 0x10, 0x00, 0xAC, 0x10, 0x00, 0x01, 0x00, 0xC0, 0xA8, 0x00, 0x01] =
      some (str ("172.16.0.0/24 -> 172.16.0.1, 192.168.0.1"), 2) := by
  constructor <;> rfl

/-- C4: the domain-name decoding loop does not terminate on every
input: on the aggregated buffer `[0xC0, 0x00]` (a compression pointer
whose 14-bit offset is 0, i.e. pointing at itself) every iteration
returns to input position 0 with an unchanged output, so no iteration
budget ever reaches a decoded name or a failure. -/
theorem c4_domain_decode_loops (n : ℕ) :
    decode_domain_name_run n [192, 0] 0 [] 256 = DNStep.cont 0 [] := by
  induction n with
  | zero => rfl
  | succ k ih =>
    have h : decode_domain_name_run (k + 1) [192, 0] 0 [] 256 =
        decode_domain_name_run k [192, 0] 0 [] 256 := rfl
    rw [h, ih]

/-- C5 counterexample: the claim as stated is false at the frame whose
options are `[53, 0, 2]` with matching opcode, cookie and transaction
ID: by the spec's reading the options carry no dhcp-message-type equal
to OFFER (the lone option 53 has declared length zero), so the claim
says the frame is dropped and the registry left unchanged — yet the
source's scan reads the octet after the length octet, takes the frame
for an OFFER, and a responder is appended to the empty registry. -/
theorem c5_counterexample :
    spec_options_carry_message [53, 0, 2] 2 = false ∧
    (dhcp_input false false (str ("eth0")) sample_mac 7 9 sample_zero_length_frame []).1 ≠
      [] := by
  constructor
  · rfl
  · decide

/-- C5 (amended): every frame that fails the acceptance filter as the
source evaluates it — opcode not BOOTREPLY, wrong magic cookie,
mismatched transaction ID, or a message-type scan of the options that
does not yield OFFER (a scan that reads the octet following the length
octet even when an option 53 declares length zero) — is dropped
silently: the registry is returned unchanged and no stderr effect is
produced. -/
theorem c5_reject_leaves_registry (audible quiet : Bool) (ifname client_mac : List ℕ)
    (t_id now : ℕ) (f : Frame) (reg : List Responder)
    (h : f.opcode ≠ 2 ∨ f.magic_cookie ≠ 0x63825363 ∨ f.xid ≠ t_id ∨
      get_dhcp_message_type f.vend ≠ some 2) :
    dhcp_input audible quiet ifname client_mac t_id now f reg = (reg, []) := by
  unfold dhcp_input
  rw [if_pos h]

/-- C5 witness: an OFFER whose transaction ID is 8 while the run uses
7 leaves an empty registry empty and writes nothing. -/
theorem c5_reject_witness :
    dhcp_input false false (str ("eth0")) sample_mac 7 9 sample_bad_xid_frame [] = ([], []) :=
  c5_reject_leaves_registry false false (str ("eth0")) sample_mac 7 9 sample_bad_xid_frame []
    (Or.inr (Or.inr (Or.inl (by decide))))

/-- C7: when an accepted OFFER arrives from a (server IPv4, server MAC)
pair already present in the registry, the registry is returned exactly
as it was — same entries, same order, same timestamps and key/value
lists — and the stderr effects are the optional bell followed by the
duplicate notice, the latter emitted exactly when `--quiet` is off. -/
theorem c7_duplicate_leaves_registry (audible quiet : Bool) (ifname client_mac : List ℕ)
    (t_id now : ℕ) (f : Frame) (reg : List Responder) (r : Responder)
    (h1 : f.opcode = 2) (h2 : f.magic_cookie = 0x63825363) (h3 : f.xid = t_id)
    (h4 : get_dhcp_message_type f.vend = some 2)
    (hfind : find_dhcp_server_data (ip_bytes f.src_ip) f.src_mac reg = some r) :
    dhcp_input audible quiet ifname client_mac t_id now f reg =
      (reg, (if audible then [Effect.bel] else []) ++
            (if quiet then [] else [Effect.dup_notice])) := by
  unfold dhcp_input
  rw [if_neg (by simp [h1, h2, h3, h4]), hfind]

/-- C7 witness: delivering `sample_offer_frame` again when its
responder is already recorded with timestamp 5 keeps the registry
as-is and emits the bell and the duplicate notice. -/
theorem c7_duplicate_witness :
    dhcp_input true false (str ("eth0")) sample_mac 7 9 sample_offer_frame
      [sample_responder] = ([sample_responder], [Effect.bel, Effect.dup_notice]) :=
  c7_duplicate_leaves_registry true false (str ("eth0")) sample_mac 7 9 sample_offer_frame
    [sample_responder] sample_responder rfl rfl rfl (by decide) (by decide)

/-- C8 counterexample: the claim says no bell is emitted for a
duplicate OFFER, but under `--audible` the duplicate accepted OFFER of
the concrete scenario does emit the BEL (the source rings the bell
right after the acceptance filter, before the duplicate check). -/
theorem c8_counterexample :
    Effect.bel ∈ (dhcp_input true false (str ("eth0")) sample_mac 7 9 sample_offer_frame
      [sample_responder]).2 := by
  decide

/-- C8 (amended): under `--audible` the BEL is emitted exactly when the
frame passes the acceptance filter — on every accepted OFFER, first and
duplicate alike — and never for rejected frames. -/
theorem c8_bell_iff_accepted (audible quiet : Bool) (ifname client_mac : List ℕ)
    (t_id now : ℕ) (f : Frame) (reg : List Responder) :
    Effect.bel ∈ (dhcp_input audible quiet ifname client_mac t_id now f reg).2 ↔
      (audible = true ∧ f.opcode = 2 ∧ f.magic_cookie = 0x63825363 ∧ f.xid = t_id ∧
       get_dhcp_message_type f.vend = some 2) := by
  unfold dhcp_input
  by_cases hrej : f.opcode ≠ 2 ∨ f.magic_cookie ≠ 0x63825363 ∨ f.xid ≠ t_id ∨
      get_dhcp_message_type f.vend ≠ some 2
  · rw [if_pos hrej]
    simp only [List.not_mem_nil, false_iff]
    tauto
  · rw [if_neg hrej]
    push_neg at hrej
    obtain ⟨e1, e2, e3, e4⟩ := hrej
    cases hfind : find_dhcp_server_data (ip_bytes f.src_ip) f.src_mac reg <;>
      cases audible <;> cases quiet <;> simp [e1, e2, e3, e4]

/-- C9: an option 57 (maximum-dhcp-message-size) with the declared
length 2 required by RFC 2132 — and used by the program's own DISCOVER
encoder — is skipped, because the decoder demands a length of at least
4; with a declared length of 4 the value is decoded from the first two
octets in network byte order. -/
theorem c9_max_message_size_evidence :
    dhcp_options [53, 1, 2, 57, 2, 5, 220, 255] =
      [⟨"dhcp-message-type", str ("2 (offer)")⟩] ∧
    (⟨"maximum-dhcp-message-size", str ("1500")⟩ : KV) ∈
      dhcp_options [53, 1, 2, 57, 4, 5, 220, 0, 0, 255] := by
  constructor
  · rfl
  · decide

/-- Cutting a list at the first failing element never lengthens it. -/
theorem takeWhile_length_le_self (p : ℕ → Bool) :
    ∀ l : List ℕ, (l.takeWhile p).length ≤ l.length
  | [] => by simp
  | a :: l => by
    rw [List.takeWhile_cons]
    by_cases h : p a = true
    · simp only [h, if_true, List.length_cons]
      have := takeWhile_length_le_self p l
      omega
    · simp [h]

/-- Every entry emitted by `quad_list_kvs` carries the key it was
given. -/
theorem quad_list_kvs_key (key : String) (data : List ℕ) (kv : KV)
    (h : kv ∈ quad_list_kvs key data) : kv.key = key := by
  unfold quad_list_kvs at h
  obtain ⟨g, hg, rfl⟩ := List.mem_map.mp h
  rfl

/-- A key of the form `option-N` is never one of the five raw-string
option keys (their first characters differ from `o`). -/
theorem option_numbered_not_raw (s : String) :
    ¬ ("option-" ++ s = "domain-name" ∨ "option-" ++ s = "message" ∨
       "option-" ++ s = "ldap-url" ∨ "option-" ++ s = "web-proxy-auto-discovery" ∨
       "option-" ++ s = "netbios-over-tcp-ip-scope") := by
  intro h
  rcases h with h | h | h | h | h <;>
    (have h2 := congrArg String.data h
     rw [String.data_append] at h2
     rw [show ("option-").data = 'o' :: ['p', 't', 'i', 'o', 'n', '-'] from rfl] at h2
     have h3 := congrArg List.head? h2
     rw [List.cons_append, List.head?_cons] at h3
     exact absurd h3 (by decide))

/-- Every entry emitted for option 33 has key `static-route`. -/
theorem static_route_kvs_key (data : List ℕ) (kv : KV) (h : kv ∈ static_route_kvs data) :
    kv.key = "static-route" := by
  unfold static_route_kvs at h
  split at h
  · split at h
    · obtain rfl := List.mem_singleton.mp h
      rfl
    · exact absurd h (List.not_mem_nil _)
  · exact absurd h (List.not_mem_nil _)

/-- Every entry emitted for option 119 has key `domain-search`. -/
theorem domain_search_kvs_key (v : List ℕ) (kv : KV) (h : kv ∈ domain_search_kvs v) :
    kv.key = "domain-search" := by
  unfold domain_search_kvs at h
  split at h
  · obtain rfl := List.mem_singleton.mp h
    rfl
  · exact absurd h (List.not_mem_nil _)

/-- Every entry emitted for option 121 has key `classless-static-route`. -/
theorem classless_route_kvs_key (data : List ℕ) (kv : KV)
    (h : kv ∈ classless_route_kvs data) : kv.key = "classless-static-route" := by
  unfold classless_route_kvs at h
  split at h
  · split at h
    · obtain rfl := List.mem_singleton.mp h
      rfl
    · exact absurd h (List.not_mem_nil _)
  · exact absurd h (List.not_mem_nil _)

/-- In the option dispatch, every entry whose key is one of the five
raw-string option keys (domain-name, message, ldap-url,
web-proxy-auto-discovery, netbios-over-tcp-ip-scope) has as its value
the copied option octets up to the first NUL. -/
theorem raw_case_val (v : List ℕ) (t l : ℕ) (data : List ℕ) (kv : KV)
    (hkv : kv ∈ dhcp_option_case v t l data)
    (hkey : kv.key = "domain-name" ∨ kv.key = "message" ∨ kv.key = "ldap-url" ∨
      kv.key = "web-proxy-auto-discovery" ∨ kv.key = "netbios-over-tcp-ip-scope") :
    kv.val = data.takeWhile (· != 0) := by
  unfold dhcp_option_case at hkv
  by_cases hc53 : t = 53
  · rw [if_pos hc53] at hkv
    split at hkv
    · have hk : kv.key = "dhcp-message-type" := by rw [List.mem_singleton.mp hkv]
      rw [hk] at hkey
      exact absurd hkey (by decide)
    · have hk : kv.key = "dhcp-message-type" := by rw [List.mem_singleton.mp hkv]
      rw [hk] at hkey
      exact absurd hkey (by decide)
  rw [if_neg hc53] at hkv
  by_cases hc54 : t = 54
  · rw [if_pos hc54] at hkv
    split at hkv
    · have hk : kv.key = "server-identifier" := by rw [List.mem_singleton.mp hkv]
      rw [hk] at hkey
      exact absurd hkey (by decide)
    · exact absurd hkv (List.not_mem_nil _)
  rw [if_neg hc54] at hkv
  by_cases hc51 : t = 51
  · rw [if_pos hc51] at hkv
    split at hkv
    · have hk : kv.key = "ip-address-lease-time" := by rw [List.mem_singleton.mp hkv]
      rw [hk] at hkey
      exact absurd hkey (by decide)
    · exact absurd hkv (List.not_mem_nil _)
  rw [if_neg hc51] at hkv
  by_cases hc1 : t = 1
  · rw [if_pos hc1] at hkv
    split at hkv
    · have hk : kv.key = "subnet-mask" := by rw [List.mem_singleton.mp hkv]
      rw [hk] at hkey
      exact absurd hkey (by decide)
    · exact absurd hkv (List.not_mem_nil _)
  rw [if_neg hc1] at hkv
  by_cases hc3 : t = 3
  · rw [if_pos hc3] at hkv
    split at hkv
    · have hk := quad_list_kvs_key _ _ _ hkv
      rw [hk] at hkey
      exact absurd hkey (by decide)
    · exact absurd hkv (List.not_mem_nil _)
  rw [if_neg hc3] at hkv
  by_cases hc6 : t = 6
  · rw [if_pos hc6] at hkv
    split at hkv
    · have hk := quad_list_kvs_key _ _ _ hkv
      rw [hk] at hkey
      exact absurd hkey (by decide)
    · exact absurd hkv (List.not_mem_nil _)
  rw [if_neg hc6] at hkv
  by_cases hc15 : t = 15
  · rw [if_pos hc15] at hkv
    obtain rfl := List.mem_singleton.mp hkv
    rfl
  rw [if_neg hc15] at hkv
  by_cases hc57 : t = 57
  · rw [if_pos hc57] at hkv
    split at hkv
    · have hk : kv.key = "maximum-dhcp-message-size" := by rw [List.mem_singleton.mp hkv]
      rw [hk] at hkey
      exact absurd hkey (by decide)
    · exact absurd hkv (List.not_mem_nil _)
  rw [if_neg hc57] at hkv
  by_cases hc58 : t = 58
  · rw [if_pos hc58] at hkv
    split at hkv
    · have hk : kv.key = "renewal-time" := by rw [List.mem_singleton.mp hkv]
      rw [hk] at hkey
      exact absurd hkey (by decide)
    · exact absurd hkv (List.not_mem_nil _)
  rw [if_neg hc58] at hkv
  by_cases hc59 : t = 59
  · rw [if_pos hc59] at hkv
    split at hkv
    · have hk : kv.key = "rebinding-time" := by rw [List.mem_singleton.mp hkv]
      rw [hk] at hkey
      exact absurd hkey (by decide)
    · exact absurd hkv (List.not_mem_nil _)
  rw [if_neg hc59] at hkv
  by_cases hc33 : t = 33
  · rw [if_pos hc33] at hkv
    have hk := static_route_kvs_key _ _ hkv
    rw [hk] at hkey
    exact absurd hkey (by decide)
  rw [if_neg hc33] at hkv
  by_cases hc56 : t = 56
  · rw [if_pos hc56] at hkv
    obtain rfl := List.mem_singleton.mp hkv
    rfl
  rw [if_neg hc56] at hkv
  by_cases hc119 : t = 119
  · rw [if_pos hc119] at hkv
    have hk := domain_search_kvs_key _ _ hkv
    rw [hk] at hkey
    exact absurd hkey (by decide)
  rw [if_neg hc119] at hkv
  by_cases hc121 : t = 121
  · rw [if_pos hc121] at hkv
    have hk := classless_route_kvs_key _ _ hkv
    rw [hk] at hkey
    exact absurd hkey (by decide)
  rw [if_neg hc121] at hkv
  by_cases hc252 : t = 252
  · rw [if_pos hc252] at hkv
    obtain rfl := List.mem_singleton.mp hkv
    rfl
  rw [if_neg hc252] at hkv
  by_cases hc95 : t = 95
  · rw [if_pos hc95] at hkv
    obtain rfl := List.mem_singleton.mp hkv
    rfl
  rw [if_neg hc95] at hkv
  by_cases hc44 : t = 44
  · rw [if_pos hc44] at hkv
    split at hkv
    · have hk := quad_list_kvs_key _ _ _ hkv
      rw [hk] at hkey
      exact absurd hkey (by decide)
    · exact absurd hkv (List.not_mem_nil _)
  rw [if_neg hc44] at hkv
  by_cases hc46 : t = 46
  · rw [if_pos hc46] at hkv
    have hk : kv.key = "netbios-over-tcp-ip-node-type" := by rw [List.mem_singleton.mp hkv]
    rw [hk] at hkey
    exact absurd hkey (by decide)
  rw [if_neg hc46] at hkv
  by_cases hc47 : t = 47
  · rw [if_pos hc47] at hkv
    obtain rfl := List.mem_singleton.mp hkv
    rfl
  rw [if_neg hc47] at hkv
  by_cases hc31 : t = 31
  · rw [if_pos hc31] at hkv
    have hk : kv.key = "perform-router-discovery" := by rw [List.mem_singleton.mp hkv]
    rw [hk] at hkey
    exact absurd hkey (by decide)
  rw [if_neg hc31] at hkv
  by_cases hc26 : t = 26
  · rw [if_pos hc26] at hkv
    have hk : kv.key = "interface-mtu" := by rw [List.mem_singleton.mp hkv]
    rw [hk] at hkey
    exact absurd hkey (by decide)
  rw [if_neg hc26] at hkv
  by_cases hc42 : t = 42
  · rw [if_pos hc42] at hkv
    split at hkv
    · have hk := quad_list_kvs_key _ _ _ hkv
      rw [hk] at hkey
      exact absurd hkey (by decide)
    · exact absurd hkv (List.not_mem_nil _)
  rw [if_neg hc42] at hkv
  by_cases hc28 : t = 28
  · rw [if_pos hc28] at hkv
    split at hkv
    · have hk : kv.key = "broadcast-address" := by rw [List.mem_singleton.mp hkv]
      rw [hk] at hkey
      exact absurd hkey (by decide)
    · exact absurd hkv (List.not_mem_nil _)
  rw [if_neg hc28] at hkv
  by_cases hc116 : t = 116
  · rw [if_pos hc116] at hkv
    have hk : kv.key = "auto-configure" := by rw [List.mem_singleton.mp hkv]
    rw [hk] at hkey
    exact absurd hkey (by decide)
  rw [if_neg hc116] at hkv
  have hk : kv.key = "option-" ++ toString t := by rw [List.mem_singleton.mp hkv]
  rw [hk] at hkey
  exact absurd hkey (option_numbered_not_raw _)

/-- Invariant of the option-processing loop behind C10: every emitted
raw-string entry takes its value from the octet run of declared length
at some position of the buffer, cut at the first NUL, so its length is
bounded by the declared length octet. -/
theorem raw_options_go : ∀ (fuel : ℕ) (v : List ℕ) (pos : ℕ) (ign : List ℕ) (kv : KV),
    kv ∈ dhcp_options_go fuel v pos ign →
    (kv.key = "domain-name" ∨ kv.key = "message" ∨ kv.key = "ldap-url" ∨
      kv.key = "web-proxy-auto-discovery" ∨ kv.key = "netbios-over-tcp-ip-scope") →
    ∃ p, kv.val = ((v.drop (p + 1)).take (v.getD p 0)).takeWhile (· != 0) ∧
      kv.val.length ≤ v.getD p 0 := by
  intro fuel
  induction fuel with
  | zero =>
    intro v pos ign kv hkv hkey
    simp [dhcp_options_go] at hkv
  | succ n ih =>
    intro v pos ign kv hkv hkey
    simp only [dhcp_options_go] at hkv
    split at hkv
    · split at hkv
      · exact ih v _ ign kv hkv hkey
      · split at hkv
        · exact absurd hkv (List.not_mem_nil _)
        · split at hkv
          · exact absurd hkv (List.not_mem_nil _)
          · split at hkv
            · exact ih v _ ign kv hkv hkey
            · rcases List.mem_append.mp hkv with hmem | hmem
              · refine ⟨pos + 1, raw_case_val v _ _ _ kv hmem hkey, ?_⟩
                rw [raw_case_val v _ _ _ kv hmem hkey]
                have h1 := takeWhile_length_le_self (· != 0)
                  ((v.drop (pos + 2)).take (v.getD (pos + 1) 0))
                have h2 : ((v.drop (pos + 2)).take (v.getD (pos + 1) 0)).length ≤
                    v.getD (pos + 1) 0 := by
                  simp [List.length_take]
                omega
              · exact ih v _ _ kv hmem hkey
    · exact absurd hkv (List.not_mem_nil _)

/-- C10: every option rendered as a raw string (domain-name 15,
message 56, ldap-url 95, web-proxy-auto-discovery 252, netbios-scope
47) takes its emitted value from a copy of the declared `length` value
octets cut at the first NUL; in particular the rendered value has at
most `length` octets, where `length` is the declared length octet at
position `p` and the value octets follow it. -/
theorem c10_raw_string_option_bounded (v : List ℕ) (kv : KV)
    (hkv : kv ∈ dhcp_options v)
    (hkey : kv.key = "domain-name" ∨ kv.key = "message" ∨ kv.key = "ldap-url" ∨
      kv.key = "web-proxy-auto-discovery" ∨ kv.key = "netbios-over-tcp-ip-scope") :
    ∃ p, kv.val = ((v.drop (p + 1)).take (v.getD p 0)).takeWhile (· != 0) ∧
      kv.val.length ≤ v.getD p 0 :=
  raw_options_go (v.length + 1) v 0 [] kv hkv hkey

/-- C10 witness: in the options buffer `[15, 3, 97, 0, 98, 255]`
(domain-name of declared length 3 whose value embeds a NUL) the decoded
domain-name value is `[97]`, the octets before the NUL, within the
declared length. -/
theorem c10_raw_witness :
    ∃ p, (KV.mk ("domain-name") [97]).val =
        (([15, 3, 97, 0, 98, 255].drop (p + 1)).take ([15, 3, 97, 0, 98, 255].getD p 0)).takeWhile
          (· != 0) ∧
      (KV.mk ("domain-name") [97]).val.length ≤ [15, 3, 97, 0, 98, 255].getD p 0 :=
  c10_raw_string_option_bounded [15, 3, 97, 0, 98, 255] (KV.mk ("domain-name") [97])
    (by decide) (Or.inl rfl)

end DhcpClient
